import Mathlib

/-!
Verification development for the order-processing microservice.

The Go sources are shallowly embedded:

* the relational store is a list of order rows; the conditional
  `UPDATE ... WHERE id = $1 AND version = $5` is a map over the rows
  together with the affected-row count;
* `float64` values are modelled exactly as dyadic rationals: an `F64` is a
  mantissa/exponent pair, and every arithmetic operation rounds the exact
  result to 53 significant bits (round to nearest, ties to even), which is
  IEEE-754 binary64 arithmetic for the magnitudes that occur here;
* UUIDs are natural numbers; `uuid.Nil` is `0` and `uuid.New()` never
  returns it, so a well-formed store has no row with id `0`.  The string
  form of a UUID inside an event payload is modelled by `UuidStr`, which
  either denotes an id or is malformed (`uuid.Parse` fails on it);
* nondeterministic inputs of the Go code (generated UUIDs, `time.Now()`,
  the simulated random processing outcome) are explicit parameters;
* every side-effecting operation returns its result together with the
  resulting store state and the list of events it published, so frame
  conditions are statable.
-/

namespace OrderProc

/-! ### IEEE-754 binary64 model -/

/-- Number of binary digits of `n`, with explicit fuel so that the
recursion is structural (the fuel only needs to exceed the bit length). -/
def bitLen : Nat → Nat → Nat
  | 0, _ => 0
  | f + 1, n => if n = 0 then 0 else bitLen f (n / 2) + 1

/-- A `float64` value: the exact dyadic rational `m * 2 ^ e`.  Mantissas
produced by the operations below have at most 53 bits. -/
structure F64 where
  m : Int
  e : Int
  deriving DecidableEq, Repr

/-- Round the exact value `M * 2 ^ e` to 53 significant bits, round to
nearest with ties to even — the binary64 rounding of a dyadic value. -/
def round53 (M : Int) (e : Int) : F64 :=
  let n := M.natAbs
  let b := bitLen 4096 n
  if b ≤ 53 then ⟨M, e⟩ else
    let s := b - 53
    let q := n >>> s
    let r := n % 2 ^ s
    let half := 2 ^ (s - 1)
    let q' := if r > half then q + 1 else if r < half then q else if q % 2 = 0 then q else q + 1
    ⟨if M < 0 then -(q' : Int) else (q' : Int), e + s⟩

/-- Round the nonnegative rational `p / q` to the nearest integer, ties
to even. -/
def divRound (p q : Nat) : Nat :=
  let f := p / q
  let r := p % q
  if 2 * r > q then f + 1 else if 2 * r < q then f else if f % 2 = 0 then f else f + 1

/-- The binary64 value nearest to the positive rational `a / b` (both
strictly positive).  Used for decimal literals such as `29.99`, whose
exact value is not representable. -/
def ofPosRat (a b : Nat) : F64 :=
  let k := bitLen 4096 a
  let l := bitLen 4096 b
  let e : Int := if b * 2 ^ k ≤ a * 2 ^ l then (k : Int) - l else (k : Int) - l - 1
  let sh : Int := 52 - e
  let N := divRound (a * 2 ^ sh.toNat) (b * 2 ^ (-sh).toNat)
  ⟨(N : Int), e - 52⟩

/-- Binary64 addition: add exactly, then round. -/
def F64.add (x y : F64) : F64 :=
  let e := min x.e y.e
  round53 (x.m * 2 ^ (x.e - e).toNat + y.m * 2 ^ (y.e - e).toNat) e

/-- Binary64 multiplication: multiply exactly, then round. -/
def F64.mul (x y : F64) : F64 := round53 (x.m * y.m) (x.e + y.e)

/-- The Go conversion `float64(n)` for an integer `n`. -/
def F64.ofInt (n : Int) : F64 := round53 n 0

/-- The exact rational value denoted by a `float64`. -/
def F64.toRat (x : F64) : ℚ := (x.m : ℚ) * (2 : ℚ) ^ x.e

/-- The `float64` zero literal `0.0`. -/
def F64.zero : F64 := ⟨0, 0⟩

/-! ### Data model (`internal/models`) -/

/-- Order lifecycle status (`models.OrderStatus`, a string enum in Go). -/
inductive OrderStatus where
  | pending
  | processing
  | completed
  | canceled
  | failed
  deriving DecidableEq, Repr

/-- Event types (`models.EventType`): `order.created`,
`order.status.changed`, `order.processing`, `order.completed`,
`order.failed`, `order.canceled`. -/
inductive EventType where
  | created
  | statusChanged
  | processing
  | completed
  | failed
  | canceled
  deriving DecidableEq, Repr

/-- A line item (`models.OrderItem`). -/
structure OrderItem where
  id : Nat
  orderId : Nat
  productId : Nat
  quantity : Int
  price : F64
  total : F64
  deriving DecidableEq, Repr

/-- The aggregate root (`models.Order`). -/
structure Order where
  id : Nat
  customerId : Nat
  status : OrderStatus
  items : List OrderItem
  totalAmount : F64
  createdAt : Nat
  updatedAt : Nat
  version : Int
  deriving DecidableEq, Repr

/-- One requested line item (`models.CreateOrderItemRequest`). -/
structure CreateOrderItemRequest where
  productId : Nat
  quantity : Int
  price : F64
  deriving DecidableEq

/-- A create request (`models.CreateOrderRequest`). -/
structure CreateOrderRequest where
  customerId : Nat
  items : List CreateOrderItemRequest
  deriving DecidableEq

/-- The expression `item.Price * float64(item.Quantity)` appearing in
`CalculateTotalAmount` and in the repository insert loop. -/
def itemTotal (it : OrderItem) : F64 := it.price.mul (F64.ofInt it.quantity)

/-- `Order.CalculateTotalAmount` from `internal/repository/interfaces.go`.
The Go loop is `for _, item := range o.Items`: `item` is a value copy, so
the assignment `item.Total = item.Price * float64(item.Quantity)` is lost
when the iteration ends; only the running `total` accumulator is stored,
and the order's items are returned unchanged. -/
def Order.CalculateTotalAmount (o : Order) : Order :=
  { o with totalAmount := o.items.foldl (fun t it => t.add (itemTotal it)) F64.zero }

/-- The `validTransitions` map literal inside `Order.IsValidStatusTransition`.
Every status is a key of the map, so the `exists` check of the Go map
lookup is true for each of the five statuses. -/
def validTransitions : OrderStatus → List OrderStatus
  | .pending => [.processing, .canceled]
  | .processing => [.completed, .failed, .canceled]
  | .completed => []
  | .canceled => []
  | .failed => [.pending]

/-- `Order.IsValidStatusTransition` from `internal/repository/interfaces.go`:
look up the allowed targets for the current status and scan them for the
requested status. -/
def Order.IsValidStatusTransition (o : Order) (newStatus : OrderStatus) : Bool :=
  (validTransitions o.status).contains newStatus

/-! ### Errors

Each constructor corresponds to one `fmt.Errorf` site; wrapper
constructors correspond to `%w` wrapping, and constructor arguments are
the format arguments. -/

/-- Error values produced by the repository, the service and the event
processor. -/
inductive GoErr where
  /-- "order not found" (`GetByID` on `sql.ErrNoRows`). -/
  | orderNotFound
  /-- "order not found or version conflict" (conditional update affected zero rows). -/
  | versionConflict
  /-- "failed to get order: %w". -/
  | failedGetOrder (e : GoErr)
  /-- "invalid status transition from %s to %s" (the two format arguments). -/
  | invalidTransition (current requested : OrderStatus)
  /-- "failed to update order status: %w" (service wrapper). -/
  | failedUpdateStatus (e : GoErr)
  /-- "invalid event data format". -/
  | invalidEventDataFormat
  /-- "missing or invalid order_id in event data". -/
  | missingOrderId
  /-- "failed to update order status to processing: %w". -/
  | failedUpdateToProcessing (e : GoErr)
  /-- "failed to update order status to completed: %w". -/
  | failedUpdateToCompleted (e : GoErr)
  /-- "failed to update order status to failed: %w". -/
  | failedUpdateToFailed (e : GoErr)
  deriving DecidableEq, Repr

/-! ### Repository (`internal/repository/order_repository.go`)

The store is the list of order rows; items are stored inside their row. -/

/-- The order rows of the relational store. -/
abbrev DB := List Order

/-- Row lookup by id (`SELECT ... WHERE id = $1`). -/
def dbGetByID (db : DB) (id : Nat) : Option Order :=
  db.find? (fun o => o.id == id)

/-- The item insert loop of `PostgresOrderRepository.Create`: each loop
copy receives a fresh id, the owning order id, and a recomputed total,
and that copy is what the `INSERT` persists. -/
def itemsWithIds (oid : Nat) (gen : Nat → Nat) : Nat → List OrderItem → List OrderItem
  | _, [] => []
  | k, it :: rest =>
    { it with id := gen k, orderId := oid, total := itemTotal it } :: itemsWithIds oid gen (k + 1) rest

/-- `PostgresOrderRepository.Create`: set `CreatedAt`, `UpdatedAt` and
`Version = 1` on the order (through the pointer, so the caller sees
them), insert the order row and its item rows atomically, and leave the
in-memory items untouched (the insert loop works on copies).  Returns
the new store and the order as the caller now sees it.  `gen` models the
`uuid.New()` calls for item ids. -/
def Repo.Create (db : DB) (order : Order) (now : Nat) (gen : Nat → Nat) : DB × Order :=
  let ord := { order with createdAt := now, updatedAt := now, version := 1 }
  (db ++ [{ ord with items := itemsWithIds ord.id gen 0 ord.items }], ord)

/-- The conditional update
`UPDATE orders SET status = $2, updated_at = $3, version = $4 WHERE id = $1 AND version = $5`
with `$4 = version + 1`, together with the affected-row count. -/
def dbCondUpdate (db : DB) (id : Nat) (st : OrderStatus) (now : Nat) (version : Int) :
    DB × Nat :=
  (db.map (fun o =>
      if o.id == id && o.version == version then
        { o with status := st, updatedAt := now, version := version + 1 }
      else o),
   (db.filter (fun o => o.id == id && o.version == version)).length)

/-- `PostgresOrderRepository.UpdateStatus`: issue the conditional update;
zero affected rows is the "order not found or version conflict" error. -/
def Repo.UpdateStatus (db : DB) (id : Nat) (st : OrderStatus) (now : Nat) (version : Int) :
    Except GoErr DB :=
  let res := dbCondUpdate db id st now version
  if res.2 = 0 then .error .versionConflict else .ok res.1

/-- Insertion into a list sorted by ascending `createdAt`. -/
def insertByCreated (o : Order) : List Order → List Order
  | [] => [o]
  | x :: xs => if o.createdAt ≤ x.createdAt then o :: x :: xs else x :: insertByCreated o xs

/-- Sorting by ascending `createdAt` (the `ORDER BY created_at ASC` of
`GetByStatus`; ties are ordered arbitrarily, as in SQL). -/
def sortByCreated : List Order → List Order
  | [] => []
  | x :: xs => insertByCreated x (sortByCreated xs)

/-- `PostgresOrderRepository.GetByStatus`:
`SELECT ... WHERE status = $1 ORDER BY created_at ASC LIMIT $2 OFFSET $3`. -/
def Repo.GetByStatus (db : DB) (st : OrderStatus) (limit offset : Nat) : List Order :=
  ((sortByCreated (db.filter (fun o => o.status == st))).drop offset).take limit

/-! ### Event model (`internal/models/events.go`) -/

/-- Payload of `order.created` (`models.OrderCreatedEventData`). -/
structure OrderCreatedEventData where
  orderId : Nat
  customerId : Nat
  items : List OrderItem
  totalAmount : F64
  createdAt : Nat
  deriving DecidableEq, Repr

/-- Payload of `order.status.changed`. -/
structure OrderStatusChangedEventData where
  orderId : Nat
  customerId : Nat
  oldStatus : OrderStatus
  newStatus : OrderStatus
  updatedAt : Nat
  reason : String
  deriving DecidableEq, Repr

/-- Payload of `order.processing`. -/
structure OrderProcessingEventData where
  orderId : Nat
  customerId : Nat
  startedAt : Nat
  deriving DecidableEq, Repr

/-- Payload of `order.completed`. -/
structure OrderCompletedEventData where
  orderId : Nat
  customerId : Nat
  completedAt : Nat
  totalAmount : F64
  deriving DecidableEq, Repr

/-- Payload of `order.failed`. -/
structure OrderFailedEventData where
  orderId : Nat
  customerId : Nat
  failedAt : Nat
  reason : String
  errMsg : String
  deriving DecidableEq, Repr

/-- Payload of `order.canceled`. -/
structure OrderCanceledEventData where
  orderId : Nat
  customerId : Nat
  canceledAt : Nat
  reason : String
  deriving DecidableEq, Repr

/-- The typed payload a producer puts into `Event.Data`. -/
inductive EventPayload where
  | created (d : OrderCreatedEventData)
  | statusChanged (d : OrderStatusChangedEventData)
  | processing (d : OrderProcessingEventData)
  | completed (d : OrderCompletedEventData)
  | failed (d : OrderFailedEventData)
  | canceled (d : OrderCanceledEventData)
  deriving DecidableEq, Repr

/-- A published event (`models.Event`): envelope id, type, payload,
timestamp and schema version. -/
structure Event where
  id : Nat
  type : EventType
  payload : EventPayload
  timestamp : Nat
  version : String
  deriving DecidableEq, Repr

/-- `models.NewEvent`: fresh envelope with schema version "1.0".  The
generated `uuid.New()` and `time.Now()` are the `evId` and `now`
parameters. -/
def NewEvent (evId : Nat) (t : EventType) (p : EventPayload) (now : Nat) : Event :=
  { id := evId, type := t, payload := p, timestamp := now, version := "1.0" }

/-- `models.NewOrderCreatedEvent`: full item snapshot of the order. -/
def NewOrderCreatedEvent (order : Order) (evId now : Nat) : Event :=
  NewEvent evId .created
    (.created { orderId := order.id, customerId := order.customerId,
                items := order.items, totalAmount := order.totalAmount,
                createdAt := order.createdAt }) now

/-- `models.NewOrderStatusChangedEvent`. -/
def NewOrderStatusChangedEvent (order : Order) (oldStatus : OrderStatus) (reason : String)
    (evId now : Nat) : Event :=
  NewEvent evId .statusChanged
    (.statusChanged { orderId := order.id, customerId := order.customerId,
                      oldStatus := oldStatus, newStatus := order.status,
                      updatedAt := order.updatedAt, reason := reason }) now

/-- `models.NewOrderProcessingEvent`. -/
def NewOrderProcessingEvent (order : Order) (evId now : Nat) : Event :=
  NewEvent evId .processing
    (.processing { orderId := order.id, customerId := order.customerId, startedAt := now }) now

/-- `models.NewOrderCompletedEvent`. -/
def NewOrderCompletedEvent (order : Order) (evId now : Nat) : Event :=
  NewEvent evId .completed
    (.completed { orderId := order.id, customerId := order.customerId,
                  completedAt := now, totalAmount := order.totalAmount }) now

/-- `models.NewOrderFailedEvent`. -/
def NewOrderFailedEvent (order : Order) (reason errMsg : String) (evId now : Nat) : Event :=
  NewEvent evId .failed
    (.failed { orderId := order.id, customerId := order.customerId,
               failedAt := now, reason := reason, errMsg := errMsg }) now

/-- The order id carried in an event payload. -/
def payloadOrderId : EventPayload → Nat
  | .created d => d.orderId
  | .statusChanged d => d.orderId
  | .processing d => d.orderId
  | .completed d => d.orderId
  | .failed d => d.orderId
  | .canceled d => d.orderId

/-! ### Kafka producer (`internal/queue/kafka_producer.go`) -/

/-- The partitioner choices sarama offers; `NewKafkaProducer` configures
`sarama.NewRandomPartitioner`, which ignores the message key. -/
inductive PartitionerChoice where
  | random
  | hashOfKey
  | roundRobin
  | manual
  deriving DecidableEq, Repr

/-- The partitioner installed by `NewKafkaProducer`:
`saramaConfig.Producer.Partitioner = sarama.NewRandomPartitioner`. -/
def producerPartitioner : PartitionerChoice := .random

/-- The fields of the `sarama.ProducerMessage` that `PublishEvent`
builds which are relevant to routing.  The `Key` is
`event.ID.String()`; UUID strings are in bijection with ids, so the key
is modelled as the id it denotes. -/
structure ProducerMessage where
  topic : String
  key : Nat
  eventId : Nat
  eventType : EventType
  timestamp : Nat
  deriving DecidableEq, Repr

/-- `KafkaProducer.PublishEvent`: marshal the event and send one message
whose key is `event.ID.String()`. -/
def PublishEvent (topic : String) (event : Event) : ProducerMessage :=
  { topic := topic, key := event.id, eventId := event.id,
    eventType := event.type, timestamp := event.timestamp }

/-! ### Command service (`internal/services/order_service.go`) -/

/-- `OrderService.CreateOrder`: build the order (status `pending`, items
copied from the request, all other fields zero values), compute the
total, persist through `Repo.Create`, publish `order.created`, return
the order.  The Go function performs no request validation.  `newId`
models `uuid.New()` for the order, `gen` the item ids, `evId` the event
envelope id.  The store model cannot fail, so the repository error
branch (which would return the error without publishing) is not
reachable here; the `Except` is kept for the call shape. -/
def Service.CreateOrder (db : DB) (req : CreateOrderRequest) (newId now : Nat)
    (gen : Nat → Nat) (evId : Nat) : Except GoErr Order × DB × List Event :=
  let order : Order :=
    { id := newId, customerId := req.customerId, status := .pending,
      items := req.items.map (fun it =>
        { id := 0, orderId := 0, productId := it.productId,
          quantity := it.quantity, price := it.price, total := F64.zero }),
      totalAmount := F64.zero, createdAt := 0, updatedAt := 0, version := 0 }
  let order := order.CalculateTotalAmount
  let created := Repo.Create db order now gen
  (.ok created.2, created.1, [NewOrderCreatedEvent created.2 evId now])

/-- `OrderService.UpdateOrderStatus`: load the order, check
`IsValidStatusTransition`, issue the conditional update with the loaded
version, then publish `order.status.changed` with old and new status.
Each error return leaves the store untouched and publishes nothing. -/
def Service.UpdateOrderStatus (db : DB) (id : Nat) (newStatus : OrderStatus) (reason : String)
    (now evId : Nat) : Except GoErr Unit × DB × List Event :=
  match dbGetByID db id with
  | none => (.error (.failedGetOrder .orderNotFound), db, [])
  | some order =>
    if order.IsValidStatusTransition newStatus then
      match Repo.UpdateStatus db id newStatus now order.version with
      | .error e => (.error (.failedUpdateStatus e), db, [])
      | .ok db2 =>
        let updated :=
          { order with status := newStatus, updatedAt := now, version := order.version + 1 }
        (.ok (), db2, [NewOrderStatusChangedEvent updated order.status reason evId now])
    else
      (.error (.invalidTransition order.status newStatus), db, [])

/-- `OrderService.CancelOrder`: sugar for a transition to `canceled`. -/
def Service.CancelOrder (db : DB) (id : Nat) (reason : String) (now evId : Nat) :
    Except GoErr Unit × DB × List Event :=
  Service.UpdateOrderStatus db id .canceled reason now evId

/-! ### Event processor (consumer side) -/

/-- The string form of a UUID as found in a decoded event payload:
either it denotes an id, or `uuid.Parse` fails on it. -/
inductive UuidStr where
  | wellformed (id : Nat)
  | malformed
  deriving DecidableEq, Repr

/-- The helper `parseUUID`: `uuid.Parse`, returning `uuid.Nil` (= `0`)
on a malformed string. -/
def parseUUID : UuidStr → Nat
  | .wellformed id => id
  | .malformed => 0

/-- A value of the decoded `map[string]interface{}` payload: either a
string or something that fails the `.(string)` assertion. -/
inductive EventVal where
  | str (s : UuidStr)
  | nonString
  deriving DecidableEq, Repr

/-- The `Data` field of a consumed event after JSON decoding: either a
`map[string]interface{}` or a value that fails the map type assertion. -/
inductive EventData where
  | map (entries : List (String × EventVal))
  | notMap
  deriving DecidableEq, Repr

/-- An event as the consumer sees it after `json.Unmarshal` (the payload
is the loosely typed map, not the producer's struct). -/
structure ConsumedEvent where
  id : Nat
  type : EventType
  data : EventData
  deriving DecidableEq, Repr

/-- The tail of `handleOrderCreated` after the order has been loaded:
skip as a successful no-op unless the status is `pending`, otherwise
conditionally transition to `processing` with the loaded version and
publish `order.processing`.  Separated from the load so that the store
passed here may already have moved on (the concurrent race the
version check exists for). -/
def Processor.createdContinue (db : DB) (order : Order) (now evId : Nat) :
    Except GoErr Unit × DB × List Event :=
  if order.status ≠ .pending then (.ok (), db, [])
  else
    match Repo.UpdateStatus db order.id .processing now order.version with
    | .error e => (.error (.failedUpdateToProcessing e), db, [])
    | .ok db2 => (.ok (), db2, [NewOrderProcessingEvent order evId now])

/-- `OrderProcessor.handleOrderCreated`: assert the payload is a map,
extract `order_id` as a string, parse it, load the order, and continue. -/
def Processor.handleOrderCreated (db : DB) (ev : ConsumedEvent) (now evId : Nat) :
    Except GoErr Unit × DB × List Event :=
  match ev.data with
  | .notMap => (.error .invalidEventDataFormat, db, [])
  | .map entries =>
    match entries.lookup "order_id" with
    | some (.str s) =>
      (match dbGetByID db (parseUUID s) with
       | none => (.error (.failedGetOrder .orderNotFound), db, [])
       | some order => Processor.createdContinue db order now evId)
    | _ => (.error .missingOrderId, db, [])

/-- The tail of `handleOrderProcessing` after the load: skip unless the
status is `processing`; otherwise sleep (no state effect), draw the
simulated outcome (`success` models `rand.Float32() < 0.9`), and
conditionally transition to `completed` or `failed`, publishing the
matching event. -/
def Processor.processingContinue (db : DB) (order : Order) (now evId : Nat) (success : Bool) :
    Except GoErr Unit × DB × List Event :=
  if order.status ≠ .processing then (.ok (), db, [])
  else if success then
    match Repo.UpdateStatus db order.id .completed now order.version with
    | .error e => (.error (.failedUpdateToCompleted e), db, [])
    | .ok db2 => (.ok (), db2, [NewOrderCompletedEvent order evId now])
  else
    match Repo.UpdateStatus db order.id .failed now order.version with
    | .error e => (.error (.failedUpdateToFailed e), db, [])
    | .ok db2 =>
      (.ok (), db2,
       [NewOrderFailedEvent order "Processing failed" "Random processing failure for simulation"
          evId now])

/-- `OrderProcessor.handleOrderProcessing`: same parsing and load as
`handleOrderCreated`, then the processing tail. -/
def Processor.handleOrderProcessing (db : DB) (ev : ConsumedEvent) (now evId : Nat)
    (success : Bool) : Except GoErr Unit × DB × List Event :=
  match ev.data with
  | .notMap => (.error .invalidEventDataFormat, db, [])
  | .map entries =>
    match entries.lookup "order_id" with
    | some (.str s) =>
      (match dbGetByID db (parseUUID s) with
       | none => (.error (.failedGetOrder .orderNotFound), db, [])
       | some order => Processor.processingContinue db order now evId success)
    | _ => (.error .missingOrderId, db, [])

/-- `OrderProcessor.HandleEvent`: dispatch on the event type; any other
event type is a successful no-op. -/
def Processor.HandleEvent (db : DB) (ev : ConsumedEvent) (now evId : Nat) (success : Bool) :
    Except GoErr Unit × DB × List Event :=
  match ev.type with
  | .created => Processor.handleOrderCreated db ev now evId
  | .processing => Processor.handleOrderProcessing db ev now evId success
  | _ => (.ok (), db, [])

/-- The publish loop of `ProcessPendingOrders`: one reconstructed
`order.created` per loaded order (`evGen k` models the `uuid.New()` of
the k-th iteration).  Publish failures are logged and skipped, never
retried; the bus model always accepts, so each order yields its event. -/
def publishAll (evGen : Nat → Nat) (now : Nat) : Nat → List Order → List Event
  | _, [] => []
  | k, o :: rest => NewOrderCreatedEvent o (evGen k) now :: publishAll evGen now (k + 1) rest

/-- `OrderProcessor.ProcessPendingOrders` (the reconciliation sweep body,
run on a 30 s ticker): load `GetByStatus(pending, 100, 0)` — at most 100
rows, no grace-period filter — and republish `order.created` for each.
No store write is issued. -/
def Processor.ProcessPendingOrders (db : DB) (evGen : Nat → Nat) (now : Nat) :
    DB × List Event :=
  (db, publishAll evGen now 0 (Repo.GetByStatus db .pending 100 0))

/-- One message delivery of `consumerGroupHandler.ConsumeClaim`: run
`processMessage` (i.e. `HandleEvent`); on error, log and continue
without `MarkMessage`; on success, `MarkMessage`.  The boolean is
whether the message was marked (acknowledged). -/
def consumeStep (db : DB) (ev : ConsumedEvent) (now evId : Nat) (success : Bool) :
    DB × List Event × Bool :=
  let r := Processor.HandleEvent db ev now evId success
  match r.1 with
  | .error _ => (r.2.1, r.2.2, false)
  | .ok _ => (r.2.1, r.2.2, true)

/-! ### Spec-side definitions and helpers for the claims -/

/-- The transition table exactly as the specification states it. -/
def specTransitionPairs : List (OrderStatus × OrderStatus) :=
  [(.pending, .processing), (.pending, .canceled),
   (.processing, .completed), (.processing, .failed), (.processing, .canceled),
   (.failed, .pending)]

/-- Version of the order stored under `id`, if any. -/
def dbVersionOf (db : DB) (id : Nat) : Option Int :=
  (dbGetByID db id).map (fun o => o.version)

/-- Status of the order stored under `id`, if any. -/
def dbStatusOf (db : DB) (id : Nat) : Option OrderStatus :=
  (dbGetByID db id).map (fun o => o.status)

/-- The ids of the rows of the store. -/
def dbIds (db : DB) : List Nat := db.map (fun o => o.id)

/-- A sequence of externally requested status mutations applied through
the service, succeeding only if every single one succeeds (timestamps
and event ids are threaded from `n`; they do not influence control
flow). -/
def applyUpdates : DB → Nat → List (OrderStatus × String) → Nat → Option DB
  | db, _, [], _ => some db
  | db, id, m :: rest, n =>
    match Service.UpdateOrderStatus db id m.1 m.2 n (n + 1) with
    | (.ok _, db2, _) => applyUpdates db2 id rest (n + 2)
    | (.error _, _, _) => none

/-- How many `order.created` events in `evs` refer to order `oid`. -/
def countCreatedFor (evs : List Event) (oid : Nat) : Nat :=
  (evs.filter (fun e => e.type == EventType.created && payloadOrderId e.payload == oid)).length

/-- A well-formed store: ids are a primary key, so no two rows share one. -/
def wfDB (db : DB) : Prop := (dbIds db).Nodup

instance (db : DB) : Decidable (wfDB db) :=
  inferInstanceAs (Decidable (dbIds db).Nodup)

instance {e a : Type} [DecidableEq e] [DecidableEq a] : DecidableEq (Except e a) := fun x y =>
  match x, y with
  | .ok u, .ok v =>
    if h : u = v then isTrue (by rw [h]) else isFalse (by intro hh; cases hh; exact h rfl)
  | .error u, .error v =>
    if h : u = v then isTrue (by rw [h]) else isFalse (by intro hh; cases hh; exact h rfl)
  | .ok _, .error _ => isFalse (by intro hh; cases hh)
  | .error _, .ok _ => isFalse (by intro hh; cases hh)

/-! ### Concrete sample data used by witnesses and counterexamples -/

/-- A pending order with no items, used to build concrete stores. -/
def mkPendingOrder (idv cAt : Nat) : Order :=
  { id := idv, customerId := 5, status := .pending, items := [], totalAmount := F64.zero,
    createdAt := cAt, updatedAt := cAt, version := 1 }

/-- A pending sample order (id 1, version 1). -/
def sampleOrder : Order := mkPendingOrder 1 0

/-- The consumed form of an `order.created` event whose payload names
order 1 by a well-formed UUID string. -/
def sampleCreatedEvent : ConsumedEvent :=
  { id := 50, type := .created, data := .map [("order_id", .str (.wellformed 1))] }

/-- A store whose only row for id 1 carries version 2: what a loader that
read version 1 races against. -/
def racedDb : DB := [{ sampleOrder with version := 2 }]

/-- An empty-items create request (the repo's own service unit test
"invalid request - no items" expects this to be rejected). -/
def emptyItemsReq : CreateOrderRequest := { customerId := 9, items := [] }

/-- The two line items of the specification's round-trip example:
price 29.99 quantity 2, and price 15.50 quantity 1. -/
def specItems : List OrderItem :=
  [{ id := 0, orderId := 0, productId := 3, quantity := 2,
     price := ofPosRat 2999 100, total := F64.zero },
   { id := 0, orderId := 0, productId := 4, quantity := 1,
     price := ofPosRat 155 10, total := F64.zero }]

/-- An order holding the specification's round-trip items. -/
def specOrder : Order :=
  { id := 1, customerId := 9, status := .pending, items := specItems,
    totalAmount := F64.zero, createdAt := 0, updatedAt := 0, version := 1 }

/-- A one-item create request: product 3, quantity 2, price 29.99. -/
def oneItemReq : CreateOrderRequest :=
  { customerId := 9,
    items := [{ productId := 3, quantity := 2, price := ofPosRat 2999 100 }] }

/-- The in-memory item that `CreateOrder` builds for `oneItemReq` (totals
are still the zero value). -/
def oneItemBuilt : OrderItem :=
  { id := 0, orderId := 0, productId := 3, quantity := 2,
    price := ofPosRat 2999 100, total := F64.zero }

/-- A store of 101 pending orders (ids 1..101, creation times 0..100),
one more than the sweep's `LIMIT 100`. -/
def db101 : DB := (List.range 101).map (fun k => mkPendingOrder (k + 1) k)

/-- A two-row store: a pending order and a completed one. -/
def smallMixedDb : DB := [mkPendingOrder 1 0, { mkPendingOrder 2 1 with status := .completed }]

/-- A store whose order 1 has already advanced to `processing`. -/
def processedDb : DB := [{ sampleOrder with status := OrderStatus.processing }]

/-- A consumed event whose decoded payload fails the map assertion. -/
def badEvent : ConsumedEvent := { id := 60, type := .created, data := .notMap }

/-! ## Theorems -/

/-- The transition predicate agrees with the specification's table on
every pair of statuses (shared helper). -/
theorem isValid_iff_spec (o : Order) (t : OrderStatus) :
    o.IsValidStatusTransition t = true ↔ (o.status, t) ∈ specTransitionPairs := by
  obtain ⟨i, c, st, its, ta, ca, ua, v⟩ := o
  show (validTransitions st).contains t = true ↔ (st, t) ∈ specTransitionPairs
  cases st <;> cases t <;> decide

/-- C1: `IsValidStatusTransition` returns true exactly on the pairs of
the specification's transition table, and `UpdateOrderStatus` on an
existing order whose (current, requested) pair is outside the table
fails with the invalid-transition error carrying both statuses, leaving
the store unchanged and publishing nothing. -/
theorem C1_transition_table :
    (∀ (o : Order) (t : OrderStatus),
        o.IsValidStatusTransition t = true ↔ (o.status, t) ∈ specTransitionPairs) ∧
    (∀ (db : DB) (id : Nat) (o : Order) (t : OrderStatus) (reason : String) (now evId : Nat),
        dbGetByID db id = some o → (o.status, t) ∉ specTransitionPairs →
        Service.UpdateOrderStatus db id t reason now evId =
          (.error (.invalidTransition o.status t), db, [])) := by
  refine ⟨isValid_iff_spec, ?_⟩
  intro db id o t reason now evId hGet hNot
  have hv : o.IsValidStatusTransition t = false := by
    cases h : o.IsValidStatusTransition t
    · rfl
    · exact absurd ((isValid_iff_spec o t).mp h) hNot
  simp [Service.UpdateOrderStatus, hGet, hv]

/-- Witness for C1: a concrete pending order asked to jump straight to
`completed` is rejected with the error naming both statuses. -/
theorem C1_transition_table_witness :
    Service.UpdateOrderStatus [sampleOrder] 1 .completed "retry" 5 6 =
      (.error (.invalidTransition .pending .completed), [sampleOrder], []) :=
  C1_transition_table.2 [sampleOrder] 1 sampleOrder .completed "retry" 5 6 (by decide) (by decide)

/-- The row function of the conditional update. -/
def condRow (id : Nat) (st : OrderStatus) (now : Nat) (v : Int) (o : Order) : Order :=
  if o.id == id && o.version == v then { o with status := st, updatedAt := now, version := v + 1 }
  else o

/-- Unfolding of the updated store as a map of `condRow` (shared helper). -/
theorem condUpdate_fst (db : DB) (id : Nat) (st : OrderStatus) (now : Nat) (v : Int) :
    (dbCondUpdate db id st now v).1 = db.map (condRow id st now v) := rfl

/-- `condRow` never changes the id of a row (shared helper). -/
theorem condRow_id (id : Nat) (st : OrderStatus) (now : Nat) (v : Int) (o : Order) :
    (condRow id st now v o).id = o.id := by
  unfold condRow
  by_cases h : (o.id == id && o.version == v) = true <;> simp [h]

/-- In a well-formed store two rows with the same id are the same row
(shared helper). -/
theorem row_unique : ∀ {db : DB}, wfDB db → ∀ {r s : Order}, r ∈ db → s ∈ db →
    r.id = s.id → r = s := by
  intro db
  induction db with
  | nil => intro _ r s hr; cases hr
  | cons a l ih =>
    intro hwf r s hr hs hid
    have hw : a.id ∉ List.map (fun o : Order => o.id) l ∧
        (List.map (fun o : Order => o.id) l).Nodup := by
      have h0 := hwf
      unfold wfDB dbIds at h0
      rw [List.map_cons, List.nodup_cons] at h0
      exact h0
    have hwl : wfDB l := by
      unfold wfDB dbIds
      exact hw.2
    rcases List.mem_cons.mp hr with rfl | hr2 <;> rcases List.mem_cons.mp hs with rfl | hs2
    · rfl
    · refine absurd ?_ hw.1
      rw [hid]
      exact List.mem_map_of_mem (fun o : Order => o.id) hs2
    · refine absurd ?_ hw.1
      rw [← hid]
      exact List.mem_map_of_mem (fun o : Order => o.id) hr2
    · exact ih hwl hr2 hs2 hid

/-- Looking up the targeted id after the conditional update returns the
image of the previous row under `condRow` (shared helper; no uniqueness
needed because `find?` commutes with an id-preserving map). -/
theorem getByID_condUpdate (db : DB) (id : Nat) (st : OrderStatus) (now : Nat) (v : Int) :
    dbGetByID (dbCondUpdate db id st now v).1 id =
      (dbGetByID db id).map (condRow id st now v) := by
  unfold dbGetByID
  have he : ((fun o : Order => o.id == id) ∘ condRow id st now v) =
      (fun o : Order => o.id == id) := by
    funext o
    simp [Function.comp, condRow_id]
  rw [condUpdate_fst, List.find?_map, he]

/-- A loaded row makes the conditional update with its own version hit at
least one row (shared helper). -/
theorem affected_pos {db : DB} {id : Nat} {o : Order} (h : dbGetByID db id = some o)
    (st : OrderStatus) (now : Nat) :
    (dbCondUpdate db id st now o.version).2 ≠ 0 := by
  have h2 : List.find? (fun r : Order => r.id == id) db = some o := h
  have hm : o ∈ db := List.mem_of_find?_eq_some h2
  have hp : o.id = id := by simpa using List.find?_some h2
  have hmem : o ∈ db.filter (fun r => r.id == id && r.version == o.version) :=
    List.mem_filter.mpr ⟨hm, by simp [hp]⟩
  have hpos : 0 < (db.filter (fun r => r.id == id && r.version == o.version)).length :=
    List.length_pos.mpr (List.ne_nil_of_mem hmem)
  unfold dbCondUpdate
  omega

/-- A conditional write presenting the loaded version succeeds (shared
helper). -/
theorem updateStatus_ok {db : DB} {id : Nat} {o : Order} (h : dbGetByID db id = some o)
    (st : OrderStatus) (now : Nat) :
    Repo.UpdateStatus db id st now o.version = .ok (dbCondUpdate db id st now o.version).1 := by
  unfold Repo.UpdateStatus
  simp [affected_pos h st now]

/-- After a successful conditional write, the targeted row carries the
new status and exactly the next version (shared helper). -/
theorem getByID_after_update {db : DB} {id : Nat} {o : Order} (h : dbGetByID db id = some o)
    (st : OrderStatus) (now : Nat) :
    dbGetByID (dbCondUpdate db id st now o.version).1 id =
      some { o with status := st, updatedAt := now, version := o.version + 1 } := by
  have h2 : List.find? (fun r : Order => r.id == id) db = some o := h
  have hp : o.id = id := by simpa using List.find?_some h2
  rw [getByID_condUpdate, h]
  simp [condRow, hp]

/-- The conditional update preserves store well-formedness (shared
helper). -/
theorem wf_condUpdate {db : DB} (h : wfDB db) (id : Nat) (st : OrderStatus) (now : Nat)
    (v : Int) : wfDB (dbCondUpdate db id st now v).1 := by
  unfold wfDB dbIds at h ⊢
  rw [condUpdate_fst, List.map_map]
  have he : ((fun o : Order => o.id) ∘ condRow id st now v) = fun o : Order => o.id := by
    funext o
    simp [Function.comp, condRow_id]
  rw [he]
  exact h

/-- A service update on a loaded order with a legal transition succeeds
and returns the conditionally updated store and one status-changed event
(shared helper). -/
theorem service_update_ok {db : DB} {id : Nat} {o : Order} (h : dbGetByID db id = some o)
    {st : OrderStatus} (ht : o.IsValidStatusTransition st = true) (reason : String)
    (now evId : Nat) :
    Service.UpdateOrderStatus db id st reason now evId =
      (.ok (), (dbCondUpdate db id st now o.version).1,
       [NewOrderStatusChangedEvent
          { o with status := st, updatedAt := now, version := o.version + 1 }
          o.status reason evId now]) := by
  unfold Service.UpdateOrderStatus
  simp [h, ht, updateStatus_ok h st now]

/-- A sequence of successful service mutations advances the stored
version by exactly its length (shared helper, induction). -/
theorem applyUpdates_version :
    ∀ (ms : List (OrderStatus × String)) (db : DB) (id : Nat) (o : Order) (n : Nat) (db2 : DB),
      wfDB db → dbGetByID db id = some o → applyUpdates db id ms n = some db2 →
      dbVersionOf db2 id = some (o.version + ms.length) := by
  intro ms
  induction ms with
  | nil =>
    intro db id o n db2 hwf h happ
    unfold applyUpdates at happ
    cases happ
    simp [dbVersionOf, h]
  | cons m rest ih =>
    intro db id o n db2 hwf h happ
    unfold applyUpdates at happ
    by_cases ht : o.IsValidStatusTransition m.1 = true
    · rw [service_update_ok h ht m.2 n (n + 1)] at happ
      have h2 := getByID_after_update h m.1 n
      have := ih _ id _ (n + 2) db2 (wf_condUpdate hwf id m.1 n o.version) h2 happ
      rw [this]
      simp only [List.length_cons]
      congr 1
      push_cast
      ring
    · have ht2 : o.IsValidStatusTransition m.1 = false := by
        cases hb : o.IsValidStatusTransition m.1
        · rfl
        · exact absurd hb ht
      unfold Service.UpdateOrderStatus at happ
      simp [h, ht2] at happ

/-- A conditional write presenting any version other than the stored one
affects zero rows and is rejected (shared helper). -/
theorem stale_write {db : DB} {id : Nat} {o : Order} (hwf : wfDB db)
    (h : dbGetByID db id = some o) {v : Int} (hne : v ≠ o.version) (st : OrderStatus)
    (now : Nat) :
    (dbCondUpdate db id st now v).2 = 0 ∧
      Repo.UpdateStatus db id st now v = .error .versionConflict := by
  have h2 : List.find? (fun r : Order => r.id == id) db = some o := h
  have hm : o ∈ db := List.mem_of_find?_eq_some h2
  have hid : o.id = id := by simpa using List.find?_some h2
  have hfil : db.filter (fun r => r.id == id && r.version == v) = [] := by
    rw [List.filter_eq_nil_iff]
    intro r hr
    simp only [Bool.and_eq_true, beq_iff_eq, not_and]
    intro hrid hrv
    have hro : r = o := row_unique hwf hr hm (hrid.trans hid.symm)
    have hov : o.version = v := by
      rw [← hro]
      exact hrv
    exact hne hov.symm
  have hz : (dbCondUpdate db id st now v).2 = 0 := by
    unfold dbCondUpdate
    simp [hfil]
  refine ⟨hz, ?_⟩
  unfold Repo.UpdateStatus
  simp [hz]

/-- C2: an order's version is 1 right after `Create`; a sequence of N
successful status mutations advances the stored version to exactly
`1 + N` (each successful `UpdateStatus` commits `version + 1` keyed on
the loaded version); and a conditional write presenting a stale version
affects zero rows and returns the conflict error instead of merging. -/
theorem C2_version_counter :
    (∀ (db : DB) (order : Order) (now : Nat) (gen : Nat → Nat),
        ((Repo.Create db order now gen).2).version = 1 ∧
        (order.id ∉ dbIds db →
          dbVersionOf (Repo.Create db order now gen).1 order.id = some 1)) ∧
    (∀ (db : DB) (id : Nat) (o : Order) (ms : List (OrderStatus × String)) (n : Nat)
        (db2 : DB), wfDB db → dbGetByID db id = some o →
        applyUpdates db id ms n = some db2 →
        dbVersionOf db2 id = some (o.version + ms.length)) ∧
    (∀ (db : DB) (id : Nat) (o : Order) (v : Int) (st : OrderStatus) (now : Nat),
        wfDB db → dbGetByID db id = some o → v ≠ o.version →
        (dbCondUpdate db id st now v).2 = 0 ∧
          Repo.UpdateStatus db id st now v = .error .versionConflict) := by
  refine ⟨?_, ?_, ?_⟩
  · intro db order now gen
    refine ⟨rfl, ?_⟩
    intro hfresh
    unfold Repo.Create dbVersionOf dbGetByID
    rw [List.find?_append]
    have h1 : db.find? (fun o => o.id == order.id) = none := by
      rw [List.find?_eq_none]
      intro x hx
      simp only [beq_iff_eq]
      intro he
      exact hfresh (he ▸ List.mem_map_of_mem (fun o : Order => o.id) hx)
    rw [h1]
    simp
  · intro db id o ms n db2 hwf h happ
    exact applyUpdates_version ms db id o n db2 hwf h happ
  · intro db id o v st now hwf h hne
    exact stale_write hwf h hne st now

/-- Witness for C2 at concrete data: create order 1 into an empty store,
run two successful mutations (to processing, then completed), and
observe version 3; a stale write with version 1 afterwards hits zero
rows and errors. -/
theorem C2_version_counter_witness :
    dbVersionOf (Repo.Create [] sampleOrder 0 (fun k => k)).1 1 = some 1 ∧
    (applyUpdates [mkPendingOrder 1 0] 1 [(.processing, "a"), (.completed, "b")] 10 =
        some ((dbCondUpdate (dbCondUpdate [mkPendingOrder 1 0] 1 .processing 10 1).1
          1 .completed 12 2).1) →
      dbVersionOf ((dbCondUpdate (dbCondUpdate [mkPendingOrder 1 0] 1 .processing 10 1).1
          1 .completed 12 2).1) 1 = some (1 + 2)) ∧
    (dbCondUpdate [mkPendingOrder 1 0] 1 .completed 9 7).2 = 0 := by
  refine ⟨?_, ?_, ?_⟩
  · exact (C2_version_counter.1 [] sampleOrder 0 (fun k => k)).2 (by decide)
  · intro happ
    exact C2_version_counter.2.1 [mkPendingOrder 1 0] 1 (mkPendingOrder 1 0)
      [(.processing, "a"), (.completed, "b")] 10 _ (by decide) (by decide) happ
  · exact (C2_version_counter.2.2 [mkPendingOrder 1 0] 1 (mkPendingOrder 1 0) 7 .completed 9
      (by decide) (by decide) (by decide)).1

/-- C3: a consumed `order.created` event whose order is no longer
`pending` is discarded as a successful no-op — no store write, no
published event — and the same discard applies to `order.processing`
events whose order is not in `processing`; replaying the `order.created`
event twice against such an order acknowledges both deliveries and
leaves the store unchanged both times. -/
theorem C3_stale_event_discard :
    ∀ (db : DB) (ev : ConsumedEvent) (entries : List (String × EventVal)) (s : UuidStr)
      (o : Order) (now evId : Nat) (success : Bool),
      ev.data = .map entries →
      entries.lookup "order_id" = some (.str s) →
      dbGetByID db (parseUUID s) = some o →
      (o.status ≠ .pending →
        Processor.handleOrderCreated db ev now evId = (.ok (), db, [])) ∧
      (o.status ≠ .processing →
        Processor.handleOrderProcessing db ev now evId success = (.ok (), db, [])) ∧
      (o.status ≠ .pending → ev.type = .created →
        consumeStep db ev now evId success = (db, [], true) ∧
        consumeStep (consumeStep db ev now evId success).1 ev now evId success =
          (db, [], true)) := by
  intro db ev entries s o now evId success hdata hlook hget
  have hc : o.status ≠ .pending →
      Processor.handleOrderCreated db ev now evId = (.ok (), db, []) := by
    intro h
    unfold Processor.handleOrderCreated
    rw [hdata]
    simp [hlook, hget, Processor.createdContinue, h]
  have hp : o.status ≠ .processing →
      Processor.handleOrderProcessing db ev now evId success = (.ok (), db, []) := by
    intro h
    unfold Processor.handleOrderProcessing
    rw [hdata]
    simp [hlook, hget, Processor.processingContinue, h]
  refine ⟨hc, hp, ?_⟩
  intro h htype
  have h1 : Processor.HandleEvent db ev now evId success = (.ok (), db, []) := by
    unfold Processor.HandleEvent
    rw [htype]
    exact hc h
  have hstep : consumeStep db ev now evId success = (db, [], true) := by
    unfold consumeStep
    rw [h1]
  refine ⟨hstep, ?_⟩
  rw [hstep]
  exact hstep

/-- Witness for C3: order 1 already in `processing`; the concrete
`order.created` event is acknowledged without any effect. -/
theorem C3_stale_event_discard_witness :
    Processor.handleOrderCreated processedDb sampleCreatedEvent 3 4 =
      (.ok (), processedDb, []) ∧
    consumeStep processedDb sampleCreatedEvent 3 4 true = (processedDb, [], true) := by
  have h := C3_stale_event_discard processedDb sampleCreatedEvent
    [("order_id", .str (.wellformed 1))] (.wellformed 1)
    { sampleOrder with status := OrderStatus.processing } 3 4 true rfl (by decide) (by decide)
  exact ⟨h.1 (by decide), (h.2.2 (by decide) rfl).1⟩

/-- Counterexample for C4: a handler that loaded version 1 while the
store already holds version 2 returns the wrapped version-conflict
error — not success as the claim states. -/
theorem C4_counterexample_error_not_success :
    Processor.createdContinue racedDb sampleOrder 7 8 =
      (.error (.failedUpdateToProcessing .versionConflict), racedDb, []) ∧
    (Processor.createdContinue racedDb sampleOrder 7 8).1 ≠ .ok () := by
  decide

/-- C4 (amended): when the conditional write loses the race (no row
matches the loaded version), both handlers surface the wrapped
version-conflict error, leave the store unchanged, publish nothing and
make no further write attempt (so the message is not acknowledged —
`ConsumeClaim` skips `MarkMessage` on error). -/
theorem C4_conflict_surfaces_error :
    ∀ (db : DB) (o : Order) (now evId : Nat) (success : Bool),
      (∀ r ∈ db, r.id = o.id → r.version ≠ o.version) →
      (o.status = .pending →
        Processor.createdContinue db o now evId =
          (.error (.failedUpdateToProcessing .versionConflict), db, [])) ∧
      (o.status = .processing →
        Processor.processingContinue db o now evId success =
          (.error ((if success then GoErr.failedUpdateToCompleted
                    else GoErr.failedUpdateToFailed) .versionConflict), db, [])) := by
  intro db o now evId success hmiss
  have hfail : ∀ (st : OrderStatus) (now2 : Nat),
      Repo.UpdateStatus db o.id st now2 o.version = .error .versionConflict := by
    intro st now2
    have hfil : db.filter (fun r => r.id == o.id && r.version == o.version) = [] := by
      rw [List.filter_eq_nil_iff]
      intro r hr
      simp only [Bool.and_eq_true, beq_iff_eq, not_and]
      exact hmiss r hr
    unfold Repo.UpdateStatus dbCondUpdate
    simp [hfil]
  constructor
  · intro hst
    unfold Processor.createdContinue
    simp [hst, hfail]
  · intro hst
    unfold Processor.processingContinue
    cases success <;> simp [hst, hfail]

/-- Witness for C4 (amended): a concrete processing-order handler racing
a store that already advanced to version 2. -/
theorem C4_conflict_surfaces_error_witness :
    Processor.processingContinue racedDb
      { sampleOrder with status := OrderStatus.processing } 7 8 true =
      (.error (.failedUpdateToCompleted .versionConflict), racedDb, []) :=
  (C4_conflict_surfaces_error racedDb
    { sampleOrder with status := OrderStatus.processing } 7 8 true (by decide)).2 rfl

/-- C5: evaluation at the failing input — `CreateOrder` performs no
request validation: the empty-items request is accepted, an order with
zero items and total 0 is persisted (one row committed) and one
`order.created` event is published, instead of the `ValidationError` the
claim (and the repository's own service unit test) requires. -/
theorem C5_create_skips_validation :
    (Service.CreateOrder [] emptyItemsReq 1 0 (fun k => k) 2).1 =
      .ok { id := 1, customerId := 9, status := .pending, items := [],
            totalAmount := F64.zero, createdAt := 0, updatedAt := 0, version := 1 } ∧
    (Service.CreateOrder [] emptyItemsReq 1 0 (fun k => k) 2).2.1 =
      [{ id := 1, customerId := 9, status := .pending, items := [],
         totalAmount := F64.zero, createdAt := 0, updatedAt := 0, version := 1 }] ∧
    (Service.CreateOrder [] emptyItemsReq 1 0 (fun k => k) 2).2.2.length = 1 := by
  decide

/-- Counterexample for C6: on the specification's own round-trip input
`[{price 29.99, qty 2}, {price 15.50, qty 1}]` the computed total is not
the exact decimal 75.48 — `CalculateTotalAmount` works in binary64
floating point, whose result here is one ulp below 75.48. -/
theorem C6_counterexample_not_exact_decimal :
    F64.toRat (specOrder.CalculateTotalAmount).totalAmount ≠ (7548 : ℚ) / 100 := by
  have h : (specOrder.CalculateTotalAmount).totalAmount = ⟨5311432810530078, -46⟩ := by
    decide
  rw [h]
  norm_num [F64.toRat]

/-- C6 (amended): `CalculateTotalAmount` sums `price × quantity` in
IEEE-754 binary64 arithmetic, not exact decimal; on the round-trip
example it yields the dyadic 2655716405265039/2^45 =
75.47999999999999…, strictly below 75.48. -/
theorem C6_binary64_total :
    (specOrder.CalculateTotalAmount).totalAmount = ⟨5311432810530078, -46⟩ ∧
    F64.toRat ⟨5311432810530078, -46⟩ = (2655716405265039 : ℚ) / 35184372088832 ∧
    (2655716405265039 : ℚ) / 35184372088832 < (7548 : ℚ) / 100 := by
  refine ⟨by decide, by norm_num [F64.toRat], by norm_num⟩

/-- Counterexample for C7: for a concrete `order.created` event (envelope
id 7) of order 42, the Kafka message key is the event id 7, not the
order id 42. -/
theorem C7_counterexample_key_not_order_id :
    payloadOrderId (NewOrderCreatedEvent (mkPendingOrder 42 0) 7 3).payload = 42 ∧
    (PublishEvent "order-events" (NewOrderCreatedEvent (mkPendingOrder 42 0) 7 3)).key = 7 ∧
    (PublishEvent "order-events" (NewOrderCreatedEvent (mkPendingOrder 42 0) 7 3)).key ≠
      payloadOrderId (NewOrderCreatedEvent (mkPendingOrder 42 0) 7 3).payload := by
  decide

/-- C7 (amended): `PublishEvent` keys every message by the event
envelope id (`event.ID.String()`), which differs per event from the
order id carried in the payload, and `NewKafkaProducer` installs a
random partitioner — so events of one order are not routed by order id. -/
theorem C7_key_is_event_id :
    (∀ (topic : String) (ev : Event), (PublishEvent topic ev).key = ev.id) ∧
    (∀ (order : Order) (evId now : Nat),
      (NewOrderCreatedEvent order evId now).id = evId ∧
      payloadOrderId (NewOrderCreatedEvent order evId now).payload = order.id) ∧
    producerPartitioner = .random :=
  ⟨fun _ _ => rfl, fun _ _ _ => ⟨rfl, rfl⟩, rfl⟩

/-- C9: evaluation at the failing input — the `order.created` event for a
one-item order (price 29.99, quantity 2) carries an item snapshot whose
`total` is still the zero value (the range-loop copy dropped it), so the
payload item total differs from `price × quantity` and the payload's
`total_amount` (the binary64 59.98) differs from the sum (0) of the
payload item totals, contradicting the claim and the repository's own
verification guide. -/
theorem C9_created_event_payload_totals :
    (Service.CreateOrder [] oneItemReq 1 0 (fun k => 100 + k) 2).2.2 =
      [NewEvent 2 .created (.created
        { orderId := 1, customerId := 9, items := [oneItemBuilt],
          totalAmount := ⟨8441434551552573, -47⟩, createdAt := 0 }) 0] ∧
    oneItemBuilt.total = F64.zero ∧
    itemTotal oneItemBuilt = ⟨8441434551552573, -47⟩ ∧
    F64.toRat F64.zero ≠ F64.toRat ⟨8441434551552573, -47⟩ := by
  refine ⟨by decide, rfl, by decide, ?_⟩
  norm_num [F64.toRat, F64.zero]

/-- C10: a consumed `order.created` or `order.processing` event whose
payload is not a map, lacks a string `order_id`, or names an order absent
from the store makes the handler return an error, so `ConsumeClaim` does
not acknowledge the message (it is left for redelivery) and the store is
unchanged; and with no row carrying `uuid.Nil` (= 0, which `uuid.New()`
never yields), an unparseable `order_id` string always lands in the
absent-order case. -/
theorem C10_bad_event_not_acked :
    (∀ (db : DB) (ev : ConsumedEvent) (now evId : Nat) (success : Bool),
      (ev.type = .created ∨ ev.type = .processing) →
      (ev.data = .notMap ∨
       (∃ entries, ev.data = .map entries ∧ entries.lookup "order_id" = none) ∨
       (∃ entries, ev.data = .map entries ∧
          entries.lookup "order_id" = some EventVal.nonString) ∨
       (∃ entries s, ev.data = .map entries ∧ entries.lookup "order_id" = some (.str s) ∧
          dbGetByID db (parseUUID s) = none)) →
      consumeStep db ev now evId success = (db, [], false)) ∧
    (∀ db : DB, (∀ o ∈ db, o.id ≠ 0) → dbGetByID db (parseUUID .malformed) = none) := by
  constructor
  · intro db ev now evId success htype hbad
    rcases htype with ht | ht
    · have hres : ∃ e : GoErr,
          Processor.handleOrderCreated db ev now evId = (.error e, db, []) := by
        rcases hbad with hb | ⟨en, hb, hl⟩ | ⟨en, hb, hl⟩ | ⟨en, s, hb, hl, hg⟩
        · exact ⟨.invalidEventDataFormat, by unfold Processor.handleOrderCreated; rw [hb]⟩
        · exact ⟨.missingOrderId, by
            unfold Processor.handleOrderCreated; rw [hb]; simp [hl]⟩
        · exact ⟨.missingOrderId, by
            unfold Processor.handleOrderCreated; rw [hb]; simp [hl]⟩
        · exact ⟨.failedGetOrder .orderNotFound, by
            unfold Processor.handleOrderCreated; rw [hb]; simp [hl, hg]⟩
      obtain ⟨e, he⟩ := hres
      have h1 : Processor.HandleEvent db ev now evId success = (.error e, db, []) := by
        unfold Processor.HandleEvent
        rw [ht]
        exact he
      unfold consumeStep
      rw [h1]
    · have hres : ∃ e : GoErr,
          Processor.handleOrderProcessing db ev now evId success = (.error e, db, []) := by
        rcases hbad with hb | ⟨en, hb, hl⟩ | ⟨en, hb, hl⟩ | ⟨en, s, hb, hl, hg⟩
        · exact ⟨.invalidEventDataFormat, by unfold Processor.handleOrderProcessing; rw [hb]⟩
        · exact ⟨.missingOrderId, by
            unfold Processor.handleOrderProcessing; rw [hb]; simp [hl]⟩
        · exact ⟨.missingOrderId, by
            unfold Processor.handleOrderProcessing; rw [hb]; simp [hl]⟩
        · exact ⟨.failedGetOrder .orderNotFound, by
            unfold Processor.handleOrderProcessing; rw [hb]; simp [hl, hg]⟩
      obtain ⟨e, he⟩ := hres
      have h1 : Processor.HandleEvent db ev now evId success = (.error e, db, []) := by
        unfold Processor.HandleEvent
        rw [ht]
        exact he
      unfold consumeStep
      rw [h1]
  · intro db h0
    unfold dbGetByID parseUUID
    rw [List.find?_eq_none]
    intro x hx
    simp only [beq_iff_eq]
    exact h0 x hx

/-- Witness for C10: a malformed-payload event against the empty store
is failed and left unacknowledged. -/
theorem C10_bad_event_not_acked_witness :
    consumeStep [] badEvent 1 2 true = ([], [], false) :=
  C10_bad_event_not_acked.1 [] badEvent 1 2 true (Or.inl rfl) (Or.inl rfl)

/-- Publishing the loop of the sweep counts exactly the orders whose id
matches (shared helper). -/
theorem countCreatedFor_publishAll (evGen : Nat → Nat) (now oid : Nat) :
    ∀ (l : List Order) (k : Nat),
      countCreatedFor (publishAll evGen now k l) oid = l.countP (fun o => o.id == oid) := by
  intro l
  induction l with
  | nil => intro k; rfl
  | cons o rest ih =>
    intro k
    have ih2 := ih (k + 1)
    unfold countCreatedFor at ih2
    unfold publishAll countCreatedFor
    rw [List.filter_cons, List.countP_cons]
    have hpe : ((NewOrderCreatedEvent o (evGen k) now).type == EventType.created &&
        payloadOrderId (NewOrderCreatedEvent o (evGen k) now).payload == oid)
        = (o.id == oid) := by
      simp [NewOrderCreatedEvent, NewEvent, payloadOrderId]
    rw [hpe]
    by_cases h : (o.id == oid) = true <;> simp [h, ih2]

/-- Insertion keeps the count of any predicate (shared helper). -/
theorem countP_insertByCreated (p : Order → Bool) (o : Order) :
    ∀ l : List Order, (insertByCreated o l).countP p = ((o :: l).countP p) := by
  intro l
  induction l with
  | nil => rfl
  | cons a t ih =>
    unfold insertByCreated
    by_cases h : o.createdAt ≤ a.createdAt
    · simp [h]
    · simp only [h, if_false, List.countP_cons, ih]
      omega

/-- Sorting keeps the count of any predicate (shared helper). -/
theorem countP_sortByCreated (p : Order → Bool) :
    ∀ l : List Order, (sortByCreated l).countP p = l.countP p := by
  intro l
  induction l with
  | nil => rfl
  | cons a t ih =>
    unfold sortByCreated
    rw [countP_insertByCreated, List.countP_cons, List.countP_cons, ih]

/-- Insertion keeps the length (shared helper). -/
theorem length_insertByCreated (o : Order) :
    ∀ l : List Order, (insertByCreated o l).length = l.length + 1 := by
  intro l
  induction l with
  | nil => rfl
  | cons a t ih =>
    unfold insertByCreated
    by_cases h : o.createdAt ≤ a.createdAt
    · simp [h]
    · simp [h, ih]

/-- Sorting keeps the length (shared helper). -/
theorem length_sortByCreated :
    ∀ l : List Order, (sortByCreated l).length = l.length := by
  intro l
  induction l with
  | nil => rfl
  | cons a t ih =>
    unfold sortByCreated
    rw [length_insertByCreated, ih]
    rfl

/-- Insertion keeps membership (shared helper). -/
theorem mem_insertByCreated {x o : Order} :
    ∀ {l : List Order}, x ∈ insertByCreated o l → x = o ∨ x ∈ l := by
  intro l
  induction l with
  | nil =>
    intro hx
    rcases List.mem_cons.mp hx with h | h
    · exact Or.inl h
    · cases h
  | cons a t ih =>
    intro hx
    unfold insertByCreated at hx
    by_cases h : o.createdAt ≤ a.createdAt
    · rw [if_pos h] at hx
      rcases List.mem_cons.mp hx with h1 | h1
      · exact Or.inl h1
      · exact Or.inr h1
    · rw [if_neg h] at hx
      rcases List.mem_cons.mp hx with h1 | h1
      · exact Or.inr (h1 ▸ List.mem_cons_self a t)
      · rcases ih h1 with h2 | h2
        · exact Or.inl h2
        · exact Or.inr (List.mem_cons_of_mem a h2)

/-- Sorting keeps membership (shared helper). -/
theorem mem_sortByCreated {x : Order} :
    ∀ {l : List Order}, x ∈ sortByCreated l → x ∈ l := by
  intro l
  induction l with
  | nil => intro hx; cases hx
  | cons a t ih =>
    intro hx
    unfold sortByCreated at hx
    rcases mem_insertByCreated hx with h | h
    · exact h ▸ List.mem_cons_self a t
    · exact List.mem_cons_of_mem a (ih h)

/-- In a well-formed store a predicate that forces the id of a member row
is matched exactly once (shared helper). -/
theorem countP_unique :
    ∀ {db : DB}, wfDB db → ∀ {o : Order}, o ∈ db → ∀ (p : Order → Bool), p o = true →
      (∀ r ∈ db, p r = true → r.id = o.id) → db.countP p = 1 := by
  intro db
  induction db with
  | nil => intro _ o ho; cases ho
  | cons a l ih =>
    intro hwf o ho p hpo hid
    have hw : a.id ∉ List.map (fun r : Order => r.id) l ∧
        (List.map (fun r : Order => r.id) l).Nodup := by
      have h0 := hwf
      unfold wfDB dbIds at h0
      rw [List.map_cons, List.nodup_cons] at h0
      exact h0
    have hwl : wfDB l := by
      unfold wfDB dbIds
      exact hw.2
    rcases List.mem_cons.mp ho with rfl | ho2
    · have hl0 : l.countP p = 0 := by
        rw [List.countP_eq_zero]
        intro r hr hpr
        have : r.id = o.id := hid r (List.mem_cons_of_mem o hr) hpr
        exact hw.1 (this ▸ List.mem_map_of_mem (fun r : Order => r.id) hr)
      rw [List.countP_cons, hl0, hpo]
      rfl
    · have hpa : p a = false := by
        cases hb : p a
        · rfl
        · have : a.id = o.id := hid a (List.mem_cons_self a l) hb
          exact absurd (this ▸ List.mem_map_of_mem (fun r : Order => r.id) ho2) hw.1
      rw [List.countP_cons, hpa]
      simp only [if_neg Bool.false_ne_true, Nat.add_zero]
      exact ih hwl ho2 p hpo (fun r hr hpr => hid r (List.mem_cons_of_mem a hr) hpr)

/-- C8 (amended): each sweep tick performs no store mutation, is a no-op
when no order is pending, publishes exactly one reconstructed
`order.created` for every pending order whenever at most 100 orders are
pending (the query reads at most the first 100 by ascending creation
time, with no grace-period filter), and publishes nothing for any order
not in `pending`. -/
theorem C8_sweep_behavior :
    ∀ (db : DB) (evGen : Nat → Nat) (now : Nat),
      (Processor.ProcessPendingOrders db evGen now).1 = db ∧
      ((∀ o ∈ db, o.status ≠ .pending) →
        (Processor.ProcessPendingOrders db evGen now).2 = []) ∧
      (wfDB db → ∀ o ∈ db, o.status = .pending →
        db.countP (fun r => r.status == OrderStatus.pending) ≤ 100 →
        countCreatedFor (Processor.ProcessPendingOrders db evGen now).2 o.id = 1) ∧
      (wfDB db → ∀ o ∈ db, o.status ≠ .pending →
        countCreatedFor (Processor.ProcessPendingOrders db evGen now).2 o.id = 0) := by
  intro db evGen now
  refine ⟨rfl, ?_, ?_, ?_⟩
  · intro hnone
    have hfil : db.filter (fun o => o.status == OrderStatus.pending) = [] := by
      rw [List.filter_eq_nil_iff]
      intro r hr
      simp only [beq_iff_eq]
      exact hnone r hr
    unfold Processor.ProcessPendingOrders Repo.GetByStatus
    rw [hfil]
    rfl
  · intro hwf o ho hop hcount
    unfold Processor.ProcessPendingOrders Repo.GetByStatus
    rw [List.drop_zero]
    have hlen : (sortByCreated (db.filter (fun r => r.status == OrderStatus.pending))).length
        ≤ 100 := by
      rw [length_sortByCreated, ← List.countP_eq_length_filter]
      exact hcount
    rw [List.take_of_length_le hlen]
    rw [countCreatedFor_publishAll, countP_sortByCreated, List.countP_filter]
    exact countP_unique hwf ho _ (by simp [hop])
      (fun r _hr hp => by
        have := (Bool.and_eq_true _ _).mp hp
        simpa using this.1)
  · intro hwf o ho hop
    unfold Processor.ProcessPendingOrders Repo.GetByStatus
    rw [List.drop_zero, countCreatedFor_publishAll]
    rw [List.countP_eq_zero]
    intro r hrt hpr
    have hrs : r ∈ sortByCreated (db.filter (fun x => x.status == OrderStatus.pending)) :=
      List.mem_of_mem_take hrt
    have hrf := mem_sortByCreated hrs
    have hrm := List.mem_filter.mp hrf
    have hrid : r.id = o.id := by simpa using hpr
    have hpend : r.status = .pending := by simpa using hrm.2
    have : r = o := row_unique hwf hrm.1 ho hrid
    exact hop (this ▸ hpend)

/-- Counterexample for C8: with 101 pending orders (all far past any
grace window), the sweep publishes nothing at all for the youngest
pending order — `GetByStatus(pending, 100, 0)` caps a tick at 100
orders, so "exactly one republication for every pending order" fails. -/
theorem C8_counterexample_101st_pending_skipped :
    dbStatusOf db101 101 = some .pending ∧
    countCreatedFor (Processor.ProcessPendingOrders db101 (fun k => 1000 + k) 777).2 101
      = 0 := by
  decide

/-- Witness for C8 (amended): on a two-row store the pending order is
republished exactly once, the completed one not at all, and the store is
untouched. -/
theorem C8_sweep_behavior_witness :
    (Processor.ProcessPendingOrders smallMixedDb (fun k => 10 + k) 99).1 = smallMixedDb ∧
    countCreatedFor (Processor.ProcessPendingOrders smallMixedDb (fun k => 10 + k) 99).2 1
      = 1 ∧
    countCreatedFor (Processor.ProcessPendingOrders smallMixedDb (fun k => 10 + k) 99).2 2
      = 0 := by
  have h := C8_sweep_behavior smallMixedDb (fun k => 10 + k) 99
  exact ⟨h.1,
    h.2.2.1 (by decide) (mkPendingOrder 1 0) (by decide) (by decide) (by decide),
    h.2.2.2 (by decide) { mkPendingOrder 2 1 with status := .completed } (by decide)
      (by decide)⟩

end OrderProc
